import Mathlib

/-!
Shallow embedding of src/src/upb_def.h (the definition layer of upb).
Inline function bodies present in the header are translated directly;
declarations whose bodies live in files outside src (upb_def.c, upb_atomic.h,
upb_table.h, upb.h, descriptor.h) are modelled from the spec and say so in
their doc comments.
-/

/-- The kinds of defs, from enum upb_def_type (upb_def.h lines 36-43). -/
inductive upb_def_type where
  | UPB_DEF_MESSAGE
  | UPB_DEF_ENUM
  | UPB_DEF_SERVICE
  | UPB_DEF_EXTENSION
  | UPB_DEF_UNRESOLVED
deriving DecidableEq

open upb_def_type

/-- Common members of every def, from struct upb_def (upb_def.h lines 46-50):
a kind tag, an atomic reference count and the fully-qualified name. The
refcount is a Nat; upb_string is modelled as String. -/
structure upb_def where
  type : upb_def_type
  refcount : Nat
  fqname : String
deriving DecidableEq

/-- Modelled from the spec: upb_atomic.h is not in src; per section 4.1 ref
atomically increments the count. -/
def upb_atomic_ref (c : Nat) : Nat := c + 1

/-- Modelled from the spec: upb_atomic.h is not in src; per section 4.1 unref
atomically decrements the count and reports whether it reached zero. -/
def upb_atomic_unref (c : Nat) : Nat × Bool := (c - 1, decide (c - 1 = 0))

/-- Wire types of a field, modelled from the spec: upb_field_type_t is
declared in upb.h, which is not in src; these are the descriptor.proto field
types the spec refers to (string kinds STRING and BYTES, submessage kinds
MESSAGE and GROUP, and the scalar kinds). -/
inductive upb_field_type_t where
  | TYPE_DOUBLE
  | TYPE_FLOAT
  | TYPE_INT64
  | TYPE_UINT64
  | TYPE_INT32
  | TYPE_FIXED64
  | TYPE_FIXED32
  | TYPE_BOOL
  | TYPE_STRING
  | TYPE_GROUP
  | TYPE_MESSAGE
  | TYPE_BYTES
  | TYPE_UINT32
  | TYPE_ENUM
  | TYPE_SFIXED32
  | TYPE_SFIXED64
  | TYPE_SINT32
  | TYPE_SINT64
deriving DecidableEq

open upb_field_type_t

/-- Field labels, modelled from the spec: upb_label_t is declared outside src;
the spec lists optional, required and repeated. The source refers to the
repeated label as GOOGLE_PROTOBUF_FIELDDESCRIPTORPROTO_LABEL_REPEATED. -/
inductive upb_label_t where
  | LABEL_OPTIONAL
  | LABEL_REQUIRED
  | LABEL_REPEATED
deriving DecidableEq

open upb_label_t

/-- One field of a message, from struct upb_fielddef (upb_def.h lines 60-73):
type, label, number, name, the byte offset and set-bit index filled in by
layout, and the owned reference to the submessage/enum def (none before
resolution). The member is called def in the C source. -/
structure upb_fielddef where
  type : upb_field_type_t
  label : upb_label_t
  number : Nat
  name : String
  byte_offset : Nat
  field_index : Nat
  «def» : Option upb_def
deriving DecidableEq

/-- Modelled from the spec: upb_isstringtype lives in upb.h, not in src;
string-typed means the STRING or BYTES wire type. -/
def upb_isstringtype (t : upb_field_type_t) : Bool :=
  t = TYPE_STRING ∨ t = TYPE_BYTES

/-- Modelled from the spec: upb_issubmsgtype lives in upb.h, not in src;
submessage-typed means the MESSAGE or GROUP wire type. -/
def upb_issubmsgtype (t : upb_field_type_t) : Bool :=
  t = TYPE_MESSAGE ∨ t = TYPE_GROUP

/-- From upb_def.h lines 75-77. -/
def upb_issubmsg (f : upb_fielddef) : Bool := upb_issubmsgtype f.type

/-- From upb_def.h lines 78-80. -/
def upb_isstring (f : upb_fielddef) : Bool := upb_isstringtype f.type

/-- From upb_def.h lines 81-83: the label is REPEATED. -/
def upb_isarray (f : upb_fielddef) : Bool := f.label = LABEL_REPEATED

/-- From upb_def.h lines 85-87. -/
def upb_field_ismm (f : upb_fielddef) : Bool :=
  upb_isarray f || upb_isstring f || upb_issubmsg f

/-- From upb_def.h lines 89-91. -/
def upb_elem_ismm (f : upb_fielddef) : Bool :=
  upb_isstring f || upb_issubmsg f

/-- Modelled from the spec: the upb_mm_ptrtype enum values are declared
outside src; the three reference kinds are distinct and the sentinel is -1,
so the codes 0, 1, 2 are chosen here. -/
def UPB_MM_ARR_REF : Int := 0

/-- Modelled from the spec: see UPB_MM_ARR_REF. -/
def UPB_MM_STR_REF : Int := 1

/-- Modelled from the spec: see UPB_MM_ARR_REF. -/
def UPB_MM_MSG_REF : Int := 2

/-- From upb_def.h lines 94-99; defined iff upb_field_ismm holds, -1 otherwise. -/
def upb_field_ptrtype (f : upb_fielddef) : Int :=
  if upb_isarray f then UPB_MM_ARR_REF
  else if upb_isstring f then UPB_MM_STR_REF
  else if upb_issubmsg f then UPB_MM_MSG_REF
  else -1

/-- From upb_def.h lines 102-106; defined iff upb_elem_ismm holds, -1 otherwise. -/
def upb_elem_ptrtype (f : upb_fielddef) : Int :=
  if upb_isstring f then UPB_MM_STR_REF
  else if upb_issubmsg f then UPB_MM_MSG_REF
  else -1

/-- The kind-specific destructor a zero refcount dispatches to in
upb_def_unref (upb_def.h lines 234-255): the msgdef destructor, the enumdef
destructor (written _upb_emumdef_free in the header, the declared destructor
being _upb_enumdef_free), the extensiondef destructor, releasing the
unresolved placeholder as a string, or the assert(false) of the
unimplemented SERVICE case. -/
inductive upb_destructor where
  | msgdef_free
  | enumdef_free
  | extensiondef_free
  | string_unref
  | service_assert
deriving DecidableEq

open upb_destructor

/-- From upb_def.h line 233: ref atomically increments the count. -/
def upb_def_ref (d : upb_def) : upb_def :=
  { d with refcount := upb_atomic_ref d.refcount }

/-- From upb_def.h lines 234-255: unref atomically decrements and, when the
count reaches zero, switches on the kind tag to the matching destructor.
The result is the surviving def (none when freed) together with the
destructor dispatched to (none when not freed). -/
def upb_def_unref (d : upb_def) : Option upb_def × Option upb_destructor :=
  let r := upb_atomic_unref d.refcount
  if r.2 then
    (none, some (match d.type with
      | UPB_DEF_MESSAGE => msgdef_free
      | UPB_DEF_ENUM => enumdef_free
      | UPB_DEF_SERVICE => service_assert
      | UPB_DEF_EXTENSION => extensiondef_free
      | UPB_DEF_UNRESOLVED => string_unref))
  else (some { d with refcount := r.1 }, none)

/-- A message definition, from struct upb_msgdef (upb_def.h lines 127-139):
the embedded upb_def base (the member is called def in the C source), the
cached default instance, the layout scalars, the exclusively owned field
array and the two lookup tables. The tables are modelled as the key-entry
association lists the hash tables of upb_table.h hold. -/
structure upb_msgdef where
  «def» : upb_def
  default_msg : Option Unit
  size : Nat
  num_fields : Nat
  set_flags_bytes : Nat
  num_required_fields : Nat
  fields : List upb_fielddef
  fields_by_num : List (Nat × upb_fielddef)
  fields_by_name : List (String × upb_fielddef)
deriving DecidableEq

/-- Modelled from the spec: upb_inttable_fast_lookup (upb_table.h, not in
src) finds the entry whose integer key matches, or nothing. -/
def upb_inttable_fast_lookup (t : List (Nat × upb_fielddef)) (n : Nat) :
    Option (Nat × upb_fielddef) :=
  t.find? (fun p => p.1 == n)

/-- Modelled from the spec: upb_strtable_lookup (upb_table.h, not in src)
finds the entry whose string key matches, or nothing. -/
def upb_strtable_lookup (t : List (String × upb_fielddef)) (s : String) :
    Option (String × upb_fielddef) :=
  t.find? (fun p => p.1 == s)

/-- From upb_def.h lines 156-161: look the field up by number in
fields_by_num; NULL (none) when there is no entry. -/
def upb_msg_fieldbynum (m : upb_msgdef) (number : Nat) : Option upb_fielddef :=
  match upb_inttable_fast_lookup m.fields_by_num number with
  | some e => some e.2
  | none => none

/-- From upb_def.h lines 163-168: look the field up by name in
fields_by_name; NULL (none) when there is no entry. -/
def upb_msg_fieldbyname (m : upb_msgdef) (name : String) : Option upb_fielddef :=
  match upb_strtable_lookup m.fields_by_name name with
  | some e => some e.2
  | none => none

/-- From upb_def.h lines 207-209: increment the refcount held in the
embedded base (the C source writes m->refcount; the count lives in the
upb_def member). -/
def upb_msgdef_ref (m : upb_msgdef) : upb_msgdef :=
  { m with «def» := { m.«def» with refcount := upb_atomic_ref m.«def».refcount } }

/-- Modelled from the spec: _upb_msgdef_free (upb_def.c, not in src)
releases the owned field array, the tables and the name; per sections 3 and
5 it drops one reference from the resolved target of each field on the way. The
returned list is those targets, each of which receives one unref. -/
def _upb_msgdef_free (m : upb_msgdef) : List upb_def :=
  m.fields.filterMap (fun f => f.«def»)

/-- From upb_def.h lines 210-212: decrement and free on reaching zero. The
result is the surviving msgdef (none when freed) together with the targets
the free drops a reference from. -/
def upb_msgdef_unref (m : upb_msgdef) : Option upb_msgdef × List upb_def :=
  let r := upb_atomic_unref m.«def».refcount
  if r.2 then (none, _upb_msgdef_free m)
  else (some { m with «def» := { m.«def» with refcount := r.1 } }, [])

/-- A field descriptor, modelled from the spec: the structured input of
section 6 (type, label, number, name); google_protobuf_FieldDescriptorProto
is only forward-declared in src. -/
structure google_protobuf_FieldDescriptorProto where
  type : upb_field_type_t
  label : upb_label_t
  number : Nat
  name : String
deriving DecidableEq

/-- A message descriptor, modelled from the spec: the ordered list of field
descriptors of section 6; google_protobuf_DescriptorProto is only
forward-declared in src. -/
structure google_protobuf_DescriptorProto where
  field : List google_protobuf_FieldDescriptorProto
deriving DecidableEq

/-- Status codes, modelled from the spec: upb_status is declared outside
src; section 7 lists the recoverable error classes duplicate-key and
malformed-descriptor. -/
inductive upb_status_code where
  | UPB_ERROR_DUP_KEY
  | UPB_ERROR_MALFORMED_DESCRIPTOR
deriving DecidableEq

open upb_status_code

/-- Modelled from the spec: a status carries a kind and human-readable
detail (section 6). -/
structure upb_status where
  code : upb_status_code
  detail : String
deriving DecidableEq

/-- From upb_def.h lines 111-114, body modelled from the spec: the body
(upb_def.c) is not in src; per section 4.2 init populates type, label,
number and name from the descriptor and leaves the def reference unset.
The declaration in src is void and takes no status parameter. -/
def upb_fielddef_init (fd : google_protobuf_FieldDescriptorProto) : upb_fielddef :=
  { type := fd.type, label := fd.label, number := fd.number, name := fd.name,
    byte_offset := 0, field_index := 0, «def» := none }

/-- Parameter type list of upb_fielddef_init as declared in upb_def.h lines
113-114. -/
def upb_fielddef_init_params : List String :=
  ["google_protobuf_FieldDescriptorProto *", "upb_fielddef *"]

/-- Parameter type list of upb_msgdef_init as declared in upb_def.h lines
202-205. -/
def upb_msgdef_init_params : List String :=
  ["upb_msgdef *", "google_protobuf_DescriptorProto *", "upb_string *",
   "bool", "upb_status *"]

/-- Member names of struct upb_def (upb_def.h lines 46-50). -/
def upb_def_members : List String := ["type", "refcount", "fqname"]

/-- Member names of struct upb_msgdef (upb_def.h lines 127-139). -/
def upb_msgdef_members : List String :=
  ["def", "default_msg", "size", "num_fields", "set_flags_bytes",
   "num_required_fields", "fields", "fields_by_num", "fields_by_name"]

/-- Member names of struct upb_enumdef (upb_def.h lines 172-176). -/
def upb_enumdef_members : List String := ["refcount", "nametoint", "inttoname"]

/-- A struct carries the RefCounted base identity when it either embeds the
upb_def base as its member def, or declares the kind tag, the refcount and
the fully-qualified name itself. -/
def carriesRefCountedBase (members : List String) : Bool :=
  members.contains "def" ||
    (members.contains "type" && members.contains "refcount" &&
      members.contains "fqname")

/-- The field is labelled required; upb_msgdef.num_required_fields counts
these (upb_def.h line 133). -/
def upb_isrequired (f : upb_fielddef) : Bool := f.label = LABEL_REQUIRED

/-- The number of required fields in a field list. -/
def countRequired (fs : List upb_fielddef) : Nat :=
  (fs.filter upb_isrequired).length

/-- Modelled from the spec: the natural size in bytes of one value of the
type, used by the packing heuristic and the offset computation of section
4.5 (strings, arrays and submessages are stored as references). -/
def upb_type_size (t : upb_field_type_t) : Nat :=
  match t with
  | TYPE_DOUBLE => 8
  | TYPE_FLOAT => 4
  | TYPE_INT64 => 8
  | TYPE_UINT64 => 8
  | TYPE_INT32 => 4
  | TYPE_FIXED64 => 8
  | TYPE_FIXED32 => 4
  | TYPE_BOOL => 1
  | TYPE_STRING => 8
  | TYPE_GROUP => 8
  | TYPE_MESSAGE => 8
  | TYPE_BYTES => 8
  | TYPE_UINT32 => 4
  | TYPE_ENUM => 4
  | TYPE_SFIXED32 => 4
  | TYPE_SFIXED64 => 8
  | TYPE_SINT32 => 4
  | TYPE_SINT64 => 8

/-- f sorts no later than g: decreasing natural size. -/
def upb_fielddef_ord (f g : upb_fielddef) : Bool :=
  upb_type_size g.type ≤ upb_type_size f.type

/-- Insert f in front of the first element it sorts no later than. -/
def sortInsert (f : upb_fielddef) : List upb_fielddef → List upb_fielddef
  | [] => [f]
  | g :: gs => if upb_fielddef_ord f g then f :: g :: gs else g :: sortInsert f gs

/-- From upb_def.h lines 117-119, body modelled from the spec: the body
(upb_def.c) is not in src, and the header documents the ordering as an
implementation choice that can change between releases; per section 9 a
deterministic stable order by decreasing natural size is chosen. -/
def upb_fielddef_sort (fs : List upb_fielddef) : List upb_fielddef :=
  match fs with
  | [] => []
  | f :: rest => sortInsert f (upb_fielddef_sort rest)

/-- Modelled from the spec: part of the layout of section 4.5; assign each
field its byte offset, accumulating the natural sizes in list order. -/
def assignOffsets (off : Nat) : List upb_fielddef → List upb_fielddef
  | [] => []
  | f :: fs => { f with byte_offset := off } ::
      assignOffsets (off + upb_type_size f.type) fs

/-- Modelled from the spec: part of the layout of section 4.5; assign each
field its presence-bit index, required fields counting up from r and the
others counting up from o, so that with r = 0 and o = the number of
required fields the required fields occupy the lowest indices as a
contiguous prefix. -/
def assignFieldIndex (r o : Nat) : List upb_fielddef → List upb_fielddef
  | [] => []
  | f :: fs =>
    if upb_isrequired f then
      { f with field_index := r } :: assignFieldIndex (r + 1) o fs
    else
      { f with field_index := o } :: assignFieldIndex r (o + 1) fs

/-- Modelled from the spec: total instance size as the sum of the natural
sizes (section 4.5 computes it as a direct consequence of the offsets). -/
def instanceSize (fs : List upb_fielddef) : Nat :=
  fs.foldl (fun a f => a + upb_type_size f.type) 0

/-- Modelled from the spec: the field order upb_msgdef_init lays out — the
descriptor order, or the sorted order when reordering is permitted
(section 4.5). -/
def orderedFields (d : google_protobuf_DescriptorProto) (srt : Bool) :
    List upb_fielddef :=
  if srt then upb_fielddef_sort (d.field.map upb_fielddef_init)
  else d.field.map upb_fielddef_init

/-- Modelled from the spec: the layout of section 4.5 — byte offsets in the
chosen order, and presence-bit indices with the required fields occupying
the contiguous prefix starting at 0. -/
def layoutFields (d : google_protobuf_DescriptorProto) (srt : Bool) :
    List upb_fielddef :=
  assignFieldIndex 0 (countRequired (orderedFields d srt))
    (assignOffsets 0 (orderedFields d srt))

/-- Modelled from the spec: the msgdef upb_msgdef_init builds once the
descriptor has passed the duplicate checks: one ref held by the caller, the
fields initialized from the descriptor in the chosen order with layout
applied, the layout scalars, and the two lookup tables keyed by the final
numbers and names (section 4.3). -/
def upb_msgdef_build (d : google_protobuf_DescriptorProto) (fqname : String)
    (srt : Bool) : upb_msgdef :=
  { «def» := { type := UPB_DEF_MESSAGE, refcount := 1, fqname := fqname },
    default_msg := none,
    size := instanceSize (orderedFields d srt),
    num_fields := (layoutFields d srt).length,
    set_flags_bytes := ((layoutFields d srt).length + 7) / 8,
    num_required_fields := countRequired (orderedFields d srt),
    fields := layoutFields d srt,
    fields_by_num := (layoutFields d srt).map (fun f => (f.number, f)),
    fields_by_name := (layoutFields d srt).map (fun f => (f.name, f)) }

/-- From upb_def.h lines 190-205, body modelled from the spec: the body
(upb_def.c) is not in src; per section 4.3 init fails with a duplicate-key
status when two fields share a number or share a name, and otherwise
initializes the fields, computes the layout of section 4.5 and builds both
lookup tables. The srt flag says whether reordering the fields is safe. -/
def upb_msgdef_init (d : google_protobuf_DescriptorProto) (fqname : String)
    (srt : Bool) : Except upb_status upb_msgdef :=
  if ¬ (d.field.map (fun fd => fd.number)).Nodup then
    .error { code := UPB_ERROR_DUP_KEY, detail := "duplicate field number" }
  else if ¬ (d.field.map (fun fd => fd.name)).Nodup then
    .error { code := UPB_ERROR_DUP_KEY, detail := "duplicate field name" }
  else
    .ok (upb_msgdef_build d fqname srt)

/-- The status code an init result reports, none when it succeeded. -/
def statusCodeOf (r : Except upb_status upb_msgdef) : Option upb_status_code :=
  match r with
  | .error e => some e.code
  | .ok _ => none

/-- A sample message def with one reference left. -/
def d1 : upb_def := { type := UPB_DEF_MESSAGE, refcount := 1, fqname := "M" }

/-- A sample target definition a field can resolve to. -/
def e7 : upb_def := { type := UPB_DEF_ENUM, refcount := 2, fqname := "E" }

/-- A sample resolved enum-typed field. -/
def f7 : upb_fielddef :=
  { type := TYPE_ENUM, label := LABEL_OPTIONAL, number := 1, name := "e",
    byte_offset := 0, field_index := 0, «def» := some e7 }

/-- A sample msgdef with one reference left whose field resolves to e7. -/
def m7 : upb_msgdef :=
  { «def» := { type := UPB_DEF_MESSAGE, refcount := 1, fqname := "M7" },
    default_msg := none,
    size := 4,
    num_fields := 1,
    set_flags_bytes := 1,
    num_required_fields := 0,
    fields := [f7],
    fields_by_num := [(1, f7)],
    fields_by_name := [("e", f7)] }

/-- A sample repeated string field. -/
def f6 : upb_fielddef :=
  { type := TYPE_STRING, label := LABEL_REPEATED, number := 3, name := "s",
    byte_offset := 0, field_index := 0, «def» := none }

/-- A sample optional int32 field, which needs no heap storage. -/
def f10 : upb_fielddef :=
  { type := TYPE_INT32, label := LABEL_OPTIONAL, number := 4, name := "i",
    byte_offset := 0, field_index := 0, «def» := none }

/-- A sample valid descriptor: an optional int32 field 1 named a and a
required string field 2 named b. -/
def d4 : google_protobuf_DescriptorProto :=
  { field := [ { type := TYPE_INT32, label := LABEL_OPTIONAL, number := 1, name := "a" },
               { type := TYPE_STRING, label := LABEL_REQUIRED, number := 2, name := "b" } ] }

/-- The msgdef built from d4 (the error arm is never taken). -/
def m4 : upb_msgdef :=
  match upb_msgdef_init d4 "M" false with
  | .ok m => m
  | .error _ =>
    { «def» := { type := UPB_DEF_MESSAGE, refcount := 0, fqname := "" },
      default_msg := none,
      size := 0,
      num_fields := 0,
      set_flags_bytes := 0,
      num_required_fields := 0,
      fields := [],
      fields_by_num := [],
      fields_by_name := [] }

/-- The first field of d4 as laid out in m4: offset 0, presence bit 1
(after the required field). -/
def fa4 : upb_fielddef :=
  { type := TYPE_INT32, label := LABEL_OPTIONAL, number := 1, name := "a",
    byte_offset := 0, field_index := 1, «def» := none }

/-- The second field of d4 as laid out in m4: offset 4, presence bit 0
(required fields take the lowest bits). -/
def fb4 : upb_fielddef :=
  { type := TYPE_STRING, label := LABEL_REQUIRED, number := 2, name := "b",
    byte_offset := 4, field_index := 0, «def» := none }

/-- A sample descriptor in which two fields share the number 1. -/
def d3 : google_protobuf_DescriptorProto :=
  { field := [ { type := TYPE_INT32, label := LABEL_OPTIONAL, number := 1, name := "a" },
               { type := TYPE_INT64, label := LABEL_OPTIONAL, number := 1, name := "b" } ] }

/-- C1: unref decrements the count and, exactly when the result is zero,
dispatches on the stored kind tag: a Message def to the msgdef destructor,
an Enum def to the enumdef destructor, an Extension def to the extensiondef
destructor, an Unresolved placeholder to a string release; a def whose
count does not reach zero is not freed. -/
theorem upb_def_unref_dispatches_by_kind (d : upb_def) (h : 1 ≤ d.refcount) :
    (d.refcount ≠ 1 →
      upb_def_unref d = (some { d with refcount := d.refcount - 1 }, none)) ∧
    (d.refcount = 1 →
      (upb_def_unref d).1 = none ∧
      (d.type = UPB_DEF_MESSAGE → (upb_def_unref d).2 = some msgdef_free) ∧
      (d.type = UPB_DEF_ENUM → (upb_def_unref d).2 = some enumdef_free) ∧
      (d.type = UPB_DEF_EXTENSION → (upb_def_unref d).2 = some extensiondef_free) ∧
      (d.type = UPB_DEF_UNRESOLVED → (upb_def_unref d).2 = some string_unref)) := by
  constructor
  · intro hne
    have h0 : ¬ (d.refcount - 1 = 0) := by omega
    simp [upb_def_unref, upb_atomic_unref, h0]
  · intro h1
    have h0 : d.refcount - 1 = 0 := by omega
    refine ⟨?_, ?_, ?_, ?_, ?_⟩ <;>
      simp [upb_def_unref, upb_atomic_unref, h0] <;>
      intro ht <;> simp [ht]

/-- C1 witness: a message def with one reference left is freed by the
msgdef destructor. -/
theorem upb_def_unref_dispatch_at_message :
    (upb_def_unref d1).1 = none ∧ (upb_def_unref d1).2 = some msgdef_free := by
  have t := upb_def_unref_dispatches_by_kind d1 (by decide)
  exact ⟨(t.2 rfl).1, (t.2 rfl).2.1 rfl⟩

/-- C5: needs_heap_storage holds exactly for repeated, string-typed or
submessage-typed fields, and element_needs_heap_storage exactly for string
or submessage element types. -/
theorem upb_field_ismm_characterization (f : upb_fielddef) :
    (upb_field_ismm f = true ↔
      (f.label = LABEL_REPEATED ∨ f.type = TYPE_STRING ∨ f.type = TYPE_BYTES ∨
       f.type = TYPE_MESSAGE ∨ f.type = TYPE_GROUP)) ∧
    (upb_elem_ismm f = true ↔
      (f.type = TYPE_STRING ∨ f.type = TYPE_BYTES ∨
       f.type = TYPE_MESSAGE ∨ f.type = TYPE_GROUP)) := by
  simp [upb_field_ismm, upb_elem_ismm, upb_isarray, upb_isstring, upb_issubmsg,
        upb_isstringtype, upb_issubmsgtype, Bool.or_eq_true, or_assoc]

/-- C6: when needs_heap_storage holds, storage_kind is the array reference
for a repeated field, otherwise the string reference for a string field,
otherwise the message reference; when element_needs_heap_storage holds,
element_storage_kind is the string reference for string element types and
the message reference for submessage element types. -/
theorem upb_field_ptrtype_classification (f : upb_fielddef) :
    (upb_field_ismm f = true →
      (upb_isarray f = true → upb_field_ptrtype f = UPB_MM_ARR_REF) ∧
      (upb_isarray f = false → upb_isstring f = true →
        upb_field_ptrtype f = UPB_MM_STR_REF) ∧
      (upb_isarray f = false → upb_isstring f = false →
        upb_field_ptrtype f = UPB_MM_MSG_REF)) ∧
    (upb_elem_ismm f = true →
      (upb_isstring f = true → upb_elem_ptrtype f = UPB_MM_STR_REF) ∧
      (upb_isstring f = false → upb_elem_ptrtype f = UPB_MM_MSG_REF)) := by
  constructor
  · intro h
    refine ⟨fun ha => ?_, fun ha hs => ?_, fun ha hs => ?_⟩
    · simp [upb_field_ptrtype, ha]
    · simp [upb_field_ptrtype, ha, hs]
    · have hsub : upb_issubmsg f = true := by
        simpa [upb_field_ismm, ha, hs] using h
      simp [upb_field_ptrtype, ha, hs, hsub]
  · intro h
    refine ⟨fun hs => ?_, fun hs => ?_⟩
    · simp [upb_elem_ptrtype, hs]
    · have hsub : upb_issubmsg f = true := by
        simpa [upb_elem_ismm, hs] using h
      simp [upb_elem_ptrtype, hs, hsub]

/-- C6 witness: a repeated string field classifies as an array reference,
and its element as a string reference. -/
theorem upb_field_ptrtype_at_repeated_string :
    upb_field_ptrtype f6 = UPB_MM_ARR_REF ∧
    upb_elem_ptrtype f6 = UPB_MM_STR_REF := by
  have t := upb_field_ptrtype_classification f6
  exact ⟨(t.1 (by decide)).1 (by decide), (t.2 (by decide)).1 (by decide)⟩

/-- C10: when needs_heap_storage does not hold, storage_kind is the
sentinel -1, and likewise element_storage_kind when
element_needs_heap_storage does not hold. -/
theorem upb_ptrtype_sentinel (f : upb_fielddef) :
    (upb_field_ismm f = false → upb_field_ptrtype f = -1) ∧
    (upb_elem_ismm f = false → upb_elem_ptrtype f = -1) := by
  constructor
  · intro h
    simp [upb_field_ismm] at h
    obtain ⟨⟨h1, h2⟩, h3⟩ := h
    simp [upb_field_ptrtype, h1, h2, h3]
  · intro h
    simp [upb_elem_ismm] at h
    obtain ⟨h1, h2⟩ := h
    simp [upb_elem_ptrtype, h1, h2]

/-- C10 witness: an optional int32 field needs no heap storage and both
classifications return -1 on it. -/
theorem upb_ptrtype_sentinel_at_optional_int32 :
    upb_field_ptrtype f10 = -1 ∧ upb_elem_ptrtype f10 = -1 := by
  have t := upb_ptrtype_sentinel f10
  exact ⟨t.1 (by decide), t.2 (by decide)⟩

/-- C7: on a def holding at least one reference, ref followed by unref
restores the count and frees nothing; a final unref that brings the msgdef
count to zero frees it and drops one reference from the resolved target of
every field. -/
theorem upb_refcount_roundtrip_and_final_free (d : upb_def) (m : upb_msgdef)
    (hd : 1 ≤ d.refcount) (hm : 1 ≤ m.«def».refcount) :
    upb_def_unref (upb_def_ref d) = (some d, none) ∧
    upb_msgdef_unref (upb_msgdef_ref m) = (some m, []) ∧
    (m.«def».refcount = 1 →
      upb_msgdef_unref m = (none, m.fields.filterMap (fun f => f.«def»))) := by
  refine ⟨?_, ?_, ?_⟩
  · have h0 : ¬ (d.refcount = 0) := by omega
    simp [upb_def_unref, upb_def_ref, upb_atomic_ref, upb_atomic_unref, h0]
  · have h0 : ¬ (m.«def».refcount = 0) := by omega
    simp [upb_msgdef_unref, upb_msgdef_ref, upb_atomic_ref, upb_atomic_unref, h0]
  · intro h1
    simp [upb_msgdef_unref, upb_atomic_unref, h1, _upb_msgdef_free]

/-- C7 witness: the round trip on concrete defs, and the final unref of m7
dropping one reference from the target e7 of its field. -/
theorem upb_refcount_roundtrip_at_sample :
    upb_def_unref (upb_def_ref d1) = (some d1, none) ∧
    upb_msgdef_unref (upb_msgdef_ref m7) = (some m7, []) ∧
    upb_msgdef_unref m7 = (none, [e7]) := by
  have t := upb_refcount_roundtrip_and_final_free d1 m7 (by decide) (by decide)
  refine ⟨t.1, t.2.1, ?_⟩
  rw [t.2.2 rfl]; rfl

/-- C8 counterexample: the declared parameter list of upb_fielddef_init
carries no status output at all, so a field-descriptor failure cannot be
reported through a status parameter of this function. -/
theorem upb_fielddef_init_no_status_param :
    upb_fielddef_init_params.contains "upb_status *" = false := by decide

/-- C8 amended: upb_fielddef_init is declared without a status output (in
contrast with upb_msgdef_init, which takes one); it populates type, label,
number and name from the descriptor and leaves the def reference unset. -/
theorem upb_fielddef_init_populates_without_status :
    (∀ fd : google_protobuf_FieldDescriptorProto,
      (upb_fielddef_init fd).type = fd.type ∧
      (upb_fielddef_init fd).label = fd.label ∧
      (upb_fielddef_init fd).number = fd.number ∧
      (upb_fielddef_init fd).name = fd.name ∧
      (upb_fielddef_init fd).«def» = none) ∧
    upb_fielddef_init_params.contains "upb_status *" = false ∧
    upb_msgdef_init_params.contains "upb_status *" = true := by
  exact ⟨fun fd => ⟨rfl, rfl, rfl, rfl, rfl⟩, by decide, by decide⟩

/-- C9 counterexample: struct upb_enumdef carries neither the embedded
upb_def base nor a kind tag or fully-qualified name of its own, so not
every definition kind carries the full RefCounted base identity. -/
theorem upb_enumdef_lacks_base :
    carriesRefCountedBase upb_enumdef_members = false := by decide

/-- C9 amended: upb_def itself and upb_msgdef (through its embedded base)
carry the kind tag, the refcount and the fully-qualified name, while
upb_enumdef carries only an atomic refcount, without a kind tag or a name. -/
theorem upb_refcounted_base_membership :
    carriesRefCountedBase upb_def_members = true ∧
    carriesRefCountedBase upb_msgdef_members = true ∧
    upb_enumdef_members.contains "refcount" = true ∧
    upb_enumdef_members.contains "type" = false ∧
    upb_enumdef_members.contains "fqname" = false := by decide

lemma isrequired_set_field_index (f : upb_fielddef) (k : Nat) :
    upb_isrequired { f with field_index := k } = upb_isrequired f := rfl

lemma isrequired_set_byte_offset (f : upb_fielddef) (k : Nat) :
    upb_isrequired { f with byte_offset := k } = upb_isrequired f := rfl

lemma sortInsert_perm (f : upb_fielddef) (l : List upb_fielddef) :
    (sortInsert f l).Perm (f :: l) := by
  induction l with
  | nil => simp [sortInsert]
  | cons g gs ih =>
    by_cases h : upb_fielddef_ord f g
    · simp [sortInsert, h]
    · simp only [sortInsert, h, if_neg, Bool.false_eq_true, ite_false]
      exact (ih.cons g).trans (List.Perm.swap f g gs)

lemma upb_fielddef_sort_perm (l : List upb_fielddef) :
    (upb_fielddef_sort l).Perm l := by
  induction l with
  | nil => simp [upb_fielddef_sort]
  | cons f fs ih =>
    exact (sortInsert_perm f (upb_fielddef_sort fs)).trans (ih.cons f)

lemma assignOffsets_map_number (o : Nat) (fs : List upb_fielddef) :
    (assignOffsets o fs).map (fun f => f.number) = fs.map (fun f => f.number) := by
  induction fs generalizing o with
  | nil => rfl
  | cons f fs ih => simp [assignOffsets, ih]

lemma assignOffsets_map_name (o : Nat) (fs : List upb_fielddef) :
    (assignOffsets o fs).map (fun f => f.name) = fs.map (fun f => f.name) := by
  induction fs generalizing o with
  | nil => rfl
  | cons f fs ih => simp [assignOffsets, ih]

lemma assignFieldIndex_map_number (r o : Nat) (fs : List upb_fielddef) :
    (assignFieldIndex r o fs).map (fun f => f.number)
      = fs.map (fun f => f.number) := by
  induction fs generalizing r o with
  | nil => rfl
  | cons f fs ih =>
    by_cases h : upb_isrequired f <;> simp [assignFieldIndex, h, ih]

lemma assignFieldIndex_map_name (r o : Nat) (fs : List upb_fielddef) :
    (assignFieldIndex r o fs).map (fun f => f.name)
      = fs.map (fun f => f.name) := by
  induction fs generalizing r o with
  | nil => rfl
  | cons f fs ih =>
    by_cases h : upb_isrequired f <;> simp [assignFieldIndex, h, ih]

lemma countRequired_assignOffsets (o : Nat) (fs : List upb_fielddef) :
    countRequired (assignOffsets o fs) = countRequired fs := by
  induction fs generalizing o with
  | nil => rfl
  | cons f fs ih =>
    by_cases h : upb_isrequired f <;>
      simp [assignOffsets, countRequired, List.filter_cons,
        isrequired_set_byte_offset, h] <;>
      exact ih (o + upb_type_size f.type)

lemma countRequired_sort (l : List upb_fielddef) :
    countRequired (upb_fielddef_sort l) = countRequired l :=
  ((upb_fielddef_sort_perm l).filter upb_isrequired).length_eq

lemma assignFieldIndex_filter_indices (fs : List upb_fielddef) (r o : Nat) :
    ((assignFieldIndex r o fs).filter upb_isrequired).map (fun f => f.field_index)
      = List.range' r ((fs.filter upb_isrequired).length) ∧
    ((assignFieldIndex r o fs).filter
        (fun f => ! upb_isrequired f)).map (fun f => f.field_index)
      = List.range' o ((fs.filter (fun f => ! upb_isrequired f)).length) := by
  induction fs generalizing r o with
  | nil => simp [assignFieldIndex]
  | cons f fs ih =>
    by_cases h : upb_isrequired f
    · have t := ih (r + 1) o
      refine ⟨?_, ?_⟩
      · simp [assignFieldIndex, h, List.filter_cons, isrequired_set_field_index,
          t.1, List.range'_succ]
      · simp [assignFieldIndex, h, List.filter_cons, isrequired_set_field_index,
          t.2]
    · have t := ih r (o + 1)
      refine ⟨?_, ?_⟩
      · simp [assignFieldIndex, h, List.filter_cons, isrequired_set_field_index,
          t.1]
      · simp [assignFieldIndex, h, List.filter_cons, isrequired_set_field_index,
          t.2, List.range'_succ]

lemma upb_msgdef_init_ok_inv (d : google_protobuf_DescriptorProto) (fq : String)
    (srt : Bool) (m : upb_msgdef) (h : upb_msgdef_init d fq srt = .ok m) :
    (d.field.map (fun fd => fd.number)).Nodup ∧
    (d.field.map (fun fd => fd.name)).Nodup ∧
    m = upb_msgdef_build d fq srt := by
  by_cases h1 : (d.field.map (fun fd => fd.number)).Nodup
  · by_cases h2 : (d.field.map (fun fd => fd.name)).Nodup
    · refine ⟨h1, h2, ?_⟩
      simp [upb_msgdef_init, h1, h2] at h
      exact h.symm
    · simp [upb_msgdef_init, h1, h2] at h
  · simp [upb_msgdef_init, h1] at h

lemma layoutFields_filter_indices (d : google_protobuf_DescriptorProto)
    (srt : Bool) :
    ((layoutFields d srt).filter upb_isrequired).map (fun f => f.field_index)
      = List.range' 0 (countRequired (orderedFields d srt)) ∧
    ((layoutFields d srt).filter
        (fun f => ! upb_isrequired f)).map (fun f => f.field_index)
      = List.range' (countRequired (orderedFields d srt))
          (((assignOffsets 0 (orderedFields d srt)).filter
            (fun f => ! upb_isrequired f)).length) := by
  have t := assignFieldIndex_filter_indices (assignOffsets 0 (orderedFields d srt))
    0 (countRequired (orderedFields d srt))
  have hc : ((assignOffsets 0 (orderedFields d srt)).filter upb_isrequired).length
      = countRequired (orderedFields d srt) :=
    countRequired_assignOffsets 0 (orderedFields d srt)
  exact ⟨by rw [layoutFields, t.1, hc], by rw [layoutFields, t.2]⟩

/-- C2: in every successfully constructed msgdef the presence-bit indices
0 up to num_required_fields - 1 belong exactly to the required fields, and
every optional or repeated field has a presence-bit index at least
num_required_fields, whether or not reordering was permitted. -/
theorem upb_msgdef_required_bit_prefix (d : google_protobuf_DescriptorProto)
    (fq : String) (srt : Bool) (m : upb_msgdef)
    (h : upb_msgdef_init d fq srt = .ok m) :
    (∀ f ∈ m.fields,
      (upb_isrequired f = true ↔ f.field_index < m.num_required_fields)) ∧
    (∀ i, i < m.num_required_fields →
      ∃ f ∈ m.fields, upb_isrequired f = true ∧ f.field_index = i) := by
  obtain ⟨h1, h2, rfl⟩ := upb_msgdef_init_ok_inv d fq srt m h
  have t := layoutFields_filter_indices d srt
  have hfields : (upb_msgdef_build d fq srt).fields = layoutFields d srt := rfl
  have hnreq : (upb_msgdef_build d fq srt).num_required_fields
      = countRequired (orderedFields d srt) := rfl
  rw [hfields, hnreq]
  constructor
  · intro f hf
    constructor
    · intro hreq
      have hmem : f ∈ (layoutFields d srt).filter upb_isrequired :=
        List.mem_filter.mpr ⟨hf, hreq⟩
      have : f.field_index ∈
          ((layoutFields d srt).filter upb_isrequired).map
            (fun f => f.field_index) :=
        List.mem_map_of_mem _ hmem
      rw [t.1] at this
      have := List.mem_range'_1.mp this
      omega
    · intro hlt
      by_contra hreq
      have hreq' : (! upb_isrequired f) = true := by
        simp at hreq; simp [hreq]
      have hmem : f ∈ (layoutFields d srt).filter (fun f => ! upb_isrequired f) :=
        List.mem_filter.mpr ⟨hf, hreq'⟩
      have : f.field_index ∈
          ((layoutFields d srt).filter (fun f => ! upb_isrequired f)).map
            (fun f => f.field_index) :=
        List.mem_map_of_mem _ hmem
      rw [t.2] at this
      have := List.mem_range'_1.mp this
      omega
  · intro i hi
    have : i ∈ List.range' 0 (countRequired (orderedFields d srt)) :=
      List.mem_range'_1.mpr (by omega)
    rw [← t.1] at this
    obtain ⟨f, hf, hidx⟩ := List.mem_map.mp this
    exact ⟨f, List.mem_of_mem_filter hf, List.of_mem_filter hf, hidx⟩

/-- C2 witness: in the msgdef built from d4, the required field b sits at
presence bit 0 (below num_required_fields = 1) and the optional field a
does not. -/
theorem upb_msgdef_required_bit_prefix_at_sample :
    (upb_isrequired fb4 = true ↔ fb4.field_index < m4.num_required_fields) ∧
    (upb_isrequired fa4 = true ↔ fa4.field_index < m4.num_required_fields) := by
  have t := upb_msgdef_required_bit_prefix d4 "M" false m4 rfl
  exact ⟨t.1 fb4 (by decide), t.1 fa4 (by decide)⟩

lemma map_getElem_dup_not_nodup {α β : Type} [DecidableEq β] (l : List α)
    (g : α → β) (i j : Nat) (a b : α) (hij : i < j) (ha : l[i]? = some a)
    (hb : l[j]? = some b) (hg : g a = g b) : ¬ (l.map g).Nodup := by
  intro hnd
  have hia : (l.map g)[i]? = some (g a) := by
    rw [List.getElem?_map, ha]; rfl
  have hjb : (l.map g)[j]? = some (g b) := by
    rw [List.getElem?_map, hb]; rfl
  have hlen : i < (l.map g).length := by
    rw [List.length_map]
    exact (List.getElem?_eq_some_iff.mp ha).1
  have : i = j := List.getElem?_inj hlen hnd (by rw [hia, hjb, hg])
  omega

/-- C3: a message descriptor in which two fields share a number or share a
name makes init fail with a duplicate-key status and yield no msgdef. -/
theorem upb_msgdef_init_duplicate_key (d : google_protobuf_DescriptorProto)
    (fq : String) (srt : Bool)
    (h : ∃ (i j : Nat) (fi fj : google_protobuf_FieldDescriptorProto),
          i < j ∧ d.field[i]? = some fi ∧ d.field[j]? = some fj ∧
          (fi.number = fj.number ∨ fi.name = fj.name)) :
    (upb_msgdef_init d fq srt).toOption = none ∧
    statusCodeOf (upb_msgdef_init d fq srt) = some UPB_ERROR_DUP_KEY := by
  obtain ⟨i, j, fi, fj, hij, hi, hj, hdup⟩ := h
  by_cases h1 : (d.field.map (fun fd => fd.number)).Nodup
  · have h2 : ¬ (d.field.map (fun fd => fd.name)).Nodup := by
      rcases hdup with hnum | hname
      · exact absurd h1
          (map_getElem_dup_not_nodup d.field _ i j fi fj hij hi hj hnum)
      · exact map_getElem_dup_not_nodup d.field _ i j fi fj hij hi hj hname
    simp [upb_msgdef_init, h1, h2, statusCodeOf, Except.toOption]
  · simp [upb_msgdef_init, h1, statusCodeOf, Except.toOption]

/-- C3 witness: the descriptor d3, whose two fields both carry number 1,
is rejected with a duplicate-key status. -/
theorem upb_msgdef_init_duplicate_key_at_sample :
    (upb_msgdef_init d3 "D" false).toOption = none ∧
    statusCodeOf (upb_msgdef_init d3 "D" false) = some UPB_ERROR_DUP_KEY :=
  upb_msgdef_init_duplicate_key d3 "D" false
    ⟨0, 1, _, _, by decide, rfl, rfl, Or.inl rfl⟩

lemma find_pairs_none {κ α : Type} [DecidableEq κ] (ps : List (κ × α)) (k : κ)
    (h : ∀ p ∈ ps, p.1 ≠ k) : ps.find? (fun p => p.1 == k) = none := by
  induction ps with
  | nil => rfl
  | cons p ps ih =>
    rw [List.find?_cons_of_neg]
    · exact ih (fun q hq => h q (List.mem_cons_of_mem p hq))
    · simpa using h p (List.mem_cons_self p ps)

lemma find_pairs_some {κ α : Type} [DecidableEq κ] (ps : List (κ × α)) (k : κ)
    (a : α) (hnd : (ps.map Prod.fst).Nodup) (hmem : (k, a) ∈ ps) :
    ps.find? (fun p => p.1 == k) = some (k, a) := by
  induction ps with
  | nil => cases hmem
  | cons p ps ih =>
    rw [List.map_cons] at hnd
    rcases List.mem_cons.mp hmem with heq | hmem2
    · rw [← heq]
      rw [List.find?_cons_of_pos]
      simp
    · have hk : p.1 ≠ k := by
        intro he
        have hin : k ∈ ps.map Prod.fst := by
          have : (k, a).1 ∈ ps.map Prod.fst := List.mem_map_of_mem Prod.fst hmem2
          exact this
        have hno := (List.nodup_cons.mp hnd).1
        rw [he] at hno
        exact hno hin
      rw [List.find?_cons_of_neg]
      · exact ih (List.nodup_cons.mp hnd).2 hmem2
      · simpa using hk

lemma orderedFields_perm (d : google_protobuf_DescriptorProto) (srt : Bool) :
    (orderedFields d srt).Perm (d.field.map upb_fielddef_init) := by
  cases srt <;> simp [orderedFields, upb_fielddef_sort_perm]

lemma layoutFields_map_number (d : google_protobuf_DescriptorProto) (srt : Bool) :
    ((layoutFields d srt).map (fun f => f.number)).Perm
      (d.field.map (fun fd => fd.number)) := by
  rw [layoutFields, assignFieldIndex_map_number, assignOffsets_map_number]
  have hp := (orderedFields_perm d srt).map (fun f => f.number)
  have he : (d.field.map upb_fielddef_init).map (fun f => f.number)
      = d.field.map (fun fd => fd.number) := by
    rw [List.map_map]; rfl
  rw [he] at hp
  exact hp

lemma layoutFields_map_name (d : google_protobuf_DescriptorProto) (srt : Bool) :
    ((layoutFields d srt).map (fun f => f.name)).Perm
      (d.field.map (fun fd => fd.name)) := by
  rw [layoutFields, assignFieldIndex_map_name, assignOffsets_map_name]
  have hp := (orderedFields_perm d srt).map (fun f => f.name)
  have he : (d.field.map upb_fielddef_init).map (fun f => f.name)
      = d.field.map (fun fd => fd.name) := by
    rw [List.map_map]; rfl
  rw [he] at hp
  exact hp

/-- C4: on a successfully constructed msgdef, looking a field up by a
number (or name) no field carries returns none rather than crashing, and
looking up a number (or name) some field carries returns that field. -/
theorem upb_msg_field_lookup_total (d : google_protobuf_DescriptorProto)
    (fq : String) (srt : Bool) (m : upb_msgdef)
    (h : upb_msgdef_init d fq srt = .ok m) :
    (∀ n : Nat, (∀ f ∈ m.fields, f.number ≠ n) →
      upb_msg_fieldbynum m n = none) ∧
    (∀ (n : Nat) (f : upb_fielddef), f ∈ m.fields → f.number = n →
      upb_msg_fieldbynum m n = some f) ∧
    (∀ s : String, (∀ f ∈ m.fields, f.name ≠ s) →
      upb_msg_fieldbyname m s = none) ∧
    (∀ (s : String) (f : upb_fielddef), f ∈ m.fields → f.name = s →
      upb_msg_fieldbyname m s = some f) := by
  obtain ⟨h1, h2, rfl⟩ := upb_msgdef_init_ok_inv d fq srt m h
  have hnum : ((layoutFields d srt).map (fun f => f.number)).Nodup :=
    (layoutFields_map_number d srt).nodup_iff.mpr h1
  have hname : ((layoutFields d srt).map (fun f => f.name)).Nodup :=
    (layoutFields_map_name d srt).nodup_iff.mpr h2
  have hfields : (upb_msgdef_build d fq srt).fields = layoutFields d srt := rfl
  rw [hfields]
  refine ⟨?_, ?_, ?_, ?_⟩
  · intro n hn
    have : ((layoutFields d srt).map (fun f => (f.number, f))).find?
        (fun p => p.1 == n) = none := by
      apply find_pairs_none
      intro p hp
      obtain ⟨f, hf, rfl⟩ := List.mem_map.mp hp
      exact hn f hf
    simp [upb_msg_fieldbynum, upb_inttable_fast_lookup, upb_msgdef_build, this]
  · intro n f hf hfn
    have hnd : (((layoutFields d srt).map (fun f => (f.number, f))).map
        Prod.fst).Nodup := by
      rw [List.map_map]
      exact hnum
    have hmem : (n, f) ∈ (layoutFields d srt).map (fun f => (f.number, f)) := by
      rw [← hfn]
      exact List.mem_map_of_mem _ hf
    have := find_pairs_some _ n f hnd hmem
    simp [upb_msg_fieldbynum, upb_inttable_fast_lookup, upb_msgdef_build, this]
  · intro s hs
    have : ((layoutFields d srt).map (fun f => (f.name, f))).find?
        (fun p => p.1 == s) = none := by
      apply find_pairs_none
      intro p hp
      obtain ⟨f, hf, rfl⟩ := List.mem_map.mp hp
      exact hs f hf
    simp [upb_msg_fieldbyname, upb_strtable_lookup, upb_msgdef_build, this]
  · intro s f hf hfs
    have hnd : (((layoutFields d srt).map (fun f => (f.name, f))).map
        Prod.fst).Nodup := by
      rw [List.map_map]
      exact hname
    have hmem : (s, f) ∈ (layoutFields d srt).map (fun f => (f.name, f)) := by
      rw [← hfs]
      exact List.mem_map_of_mem _ hf
    have := find_pairs_some _ s f hnd hmem
    simp [upb_msg_fieldbyname, upb_strtable_lookup, upb_msgdef_build, this]

/-- C4 witness: on the msgdef built from d4, the absent number 3 and name
c return none, while number 1 and name b return the fields that carry
them. -/
theorem upb_msg_field_lookup_at_sample :
    upb_msg_fieldbynum m4 3 = none ∧
    upb_msg_fieldbyname m4 "c" = none ∧
    upb_msg_fieldbynum m4 1 = some fa4 ∧
    upb_msg_fieldbyname m4 "b" = some fb4 := by
  have t := upb_msg_field_lookup_total d4 "M" false m4 rfl
  exact ⟨t.1 3 (by decide), t.2.2.1 "c" (by decide),
    t.2.1 1 fa4 (by decide) rfl, t.2.2.2 "b" fb4 (by decide) rfl⟩
